import Mathlib

/-!
Storage-layout comparison script (`scripts/checks/compare-layout.js`).

A shallow embedding of the script that loads two JSON snapshots of storage
layouts (`ref` as `oldLayout`, `head` as `newLayout`), walks the unit names of
the old snapshot and delegates every shared name to `getStorageUpgradeReport`,
raising `process.exitCode` to `1` when a report is not ok.

* Part 1 is the data model of layouts and reports.
* Part 2 embeds the script itself.  The comparison routine lives in the
  external package `@openzeppelin/upgrades-core`; the script is embedded over
  an arbitrary comparison function `cmp`.
* Part 3 models the comparison engine from the specification (slot layout
  resolver, type compatibility oracle, layout differ).
* Part 4 holds the theorems.
-/

set_option autoImplicit false

namespace CompareLayout

/-! ## Part 1: data model of layouts and reports -/

/-- Kind tag of a storage type. -/
inductive Kind where
  | primitiveScalar | fixedSizeArray | dynamicArray | mapping | struct | enum
  | contractReference | functionReference
  deriving DecidableEq, Repr

/-- Modelled from the spec: the type descriptor of section 3 (the comparison
library is not part of the sources).  A kind tag, a byte size (`none` when
marked dynamic) and the member descriptors (array element, mapping value,
struct members); `tag` is the signedness or semantic tag and `length` the
element count that oracle rules 2, 5 and 6 look at. -/
inductive TypeDescriptor where
  | mk (kind : Kind) (size : Option Nat) (tag : String) (length : Nat)
      (members : List TypeDescriptor)
  deriving Repr

/-- Modelled from the spec: a named storage variable of section 3, with the
optional declared slot hint of section 6.  The declaration order index is the
position in the layout. -/
structure Variable where
  name : String
  type : TypeDescriptor
  slotHint : Option Nat
  deriving Repr

/-- Modelled from the spec: one version of one storage-owning unit, in
declaration order. -/
abbrev Layout := List Variable

/-- Modelled from the spec: severity of one finding of a comparison
(section 3). -/
inductive Severity where
  | OK | WARNING | UNSAFE_APPEND | UNSAFE_REMOVE | UNSAFE_TYPE_CHANGE | UNSAFE_RESIZE
  deriving DecidableEq, Repr

/-- Modelled from the spec: the severities classified as unsafe, everything but
OK and WARNING (section 4.3). -/
def Severity.isUnsafe : Severity → Bool
  | .OK => false
  | .WARNING => false
  | _ => true

/-- Modelled from the spec: one comparison result for a matched or unmatched
variable pair (section 3). -/
structure Finding where
  severity : Severity
  oldVar : Option Variable
  newVar : Option Variable
  explanation : String
  deriving Repr

/-- Modelled from the spec: the report returned by a comparison (section 3).
The script reads nothing of it but `ok`. -/
structure Report where
  findings : List Finding
  deriving Repr

/-- Modelled from the spec: the derived flag `report.ok`, true when no finding
has an unsafe severity. -/
def Report.ok (r : Report) : Bool := r.findings.all (fun f => !f.severity.isUnsafe)

/-! ## Part 2: the script -/

/-- What a property read `obj[name]` on a snapshot can evaluate to.  `L` is the
type of the entries `JSON.parse` produced for the unit names. -/
inductive Value (L : Type) where
  /-- an own property of the parsed object -/
  | json (v : L)
  /-- a property found on `Object.prototype` through the prototype chain -/
  | inherited (name : String)
  /-- no such property -/
  | undefined
  deriving DecidableEq, Repr

/-- A parsed snapshot: the own enumerable properties of the object returned by
`JSON.parse`, listed in the order in which `for ... in` enumerates them. -/
abbrev Snapshot (L : Type) := List (String × L)

/-- Property names every ordinary object inherits from `Object.prototype`
(none of them enumerable). -/
def objectPrototypeProps : List String :=
  ["constructor", "__defineGetter__", "__defineSetter__", "hasOwnProperty",
   "__lookupGetter__", "__lookupSetter__", "isPrototypeOf", "propertyIsEnumerable",
   "toString", "valueOf", "__proto__", "toLocaleString"]

/-- Own keys of a snapshot. -/
def ownKeys {L : Type} (o : Snapshot L) : List String := o.map Prod.fst

/-- The loop header `for (const name in o)`: the enumerable property names.  The properties of
`Object.prototype` are not enumerable, so these are the own keys. -/
def forInKeys {L : Type} (o : Snapshot L) : List String := ownKeys o

/-- Own-property lookup. -/
def ownProp {L : Type} (o : Snapshot L) (name : String) : Option L :=
  (o.find? (fun p => p.1 == name)).map Prod.snd

/-- The test `name in o`: true for an own property and for one found on the prototype
chain. -/
def hasProperty {L : Type} (o : Snapshot L) (name : String) : Bool :=
  (ownProp o name).isSome || objectPrototypeProps.contains name

/-- The read `o[name]`: the own property when there is one, else what the prototype
chain gives. -/
def getProp {L : Type} (o : Snapshot L) (name : String) : Value L :=
  match ownProp o name with
  | some v => .json v
  | none => if objectPrototypeProps.contains name then .inherited name else .undefined

/-- The options object handed to the comparison; the script passes `{}`. -/
abbrev Options := List (String × Bool)

/-- The object literal `{}`. -/
def emptyOptions : Options := []

/-- A comparison routine as the script sees it: it returns a report or throws. -/
abbrev Comparison (L ε : Type) := Value L → Value L → Options → Except ε Report

/-- Observable state of the running script: `process.exitCode` (`none` while
untouched), the arguments of the comparisons invoked so far, and the error that
escaped the loop, if any. -/
structure Process (L ε : Type) where
  exitCode : Option Nat
  calls : List (Value L × Value L × Options)
  thrown : Option ε

/-- State before the loop starts. -/
def Process.initial {L ε : Type} : Process L ε := ⟨none, [], none⟩

/-- The status the process ends with: an uncaught error terminates it with
status 1, otherwise `process.exitCode` is used, zero when untouched. -/
def Process.exitStatus {L ε : Type} (p : Process L ε) : Nat :=
  match p.thrown with
  | some _ => 1
  | none => p.exitCode.getD 0

/-- One pass through the loop body for `name`. -/
def iteration {L ε : Type} (cmp : Comparison L ε) (oldLayout newLayout : Snapshot L)
    (st : Process L ε) (name : String) : Process L ε :=
  if hasProperty newLayout name then
    let a := getProp oldLayout name
    let b := getProp newLayout name
    let st1 : Process L ε := { st with calls := st.calls ++ [(a, b, emptyOptions)] }
    match cmp a b emptyOptions with
    | .error e => { st1 with thrown := some e }
    | .ok report => if !report.ok then { st1 with exitCode := some 1 } else st1
  else
    st

/-- The `for ... in` loop over the given names; there is no `try`, so an error
thrown by the comparison leaves the loop. -/
def forInLoop {L ε : Type} (cmp : Comparison L ε) (oldLayout newLayout : Snapshot L) :
    List String → Process L ε → Process L ε
  | [], st => st
  | name :: rest, st =>
    let st1 := iteration cmp oldLayout newLayout st name
    match st1.thrown with
    | some _ => st1
    | none => forInLoop cmp oldLayout newLayout rest st1

/-- The whole script, after both snapshots have been parsed. -/
def main {L ε : Type} (cmp : Comparison L ε) (oldLayout newLayout : Snapshot L) :
    Process L ε :=
  forInLoop cmp oldLayout newLayout (forInKeys oldLayout) Process.initial

/-- The names the loop hands to the comparison: those with `name in newLayout`. -/
def sharedNames {L : Type} (oldLayout newLayout : Snapshot L) : List String :=
  (forInKeys oldLayout).filter (fun name => hasProperty newLayout name)

/-- The argument triple the loop passes for `name`. -/
def callArgs {L : Type} (oldLayout newLayout : Snapshot L) (name : String) :
    Value L × Value L × Options :=
  (getProp oldLayout name, getProp newLayout name, emptyOptions)

/-- The comparison of `name` returns a report that is not ok. -/
def notOkAt {L ε : Type} (cmp : Comparison L ε) (oldLayout newLayout : Snapshot L)
    (name : String) : Prop :=
  ∃ r, cmp (getProp oldLayout name) (getProp newLayout name) emptyOptions = .ok r ∧
    r.ok = false

/-- The comparison of `name` returns normally. -/
def returnsAt {L ε : Type} (cmp : Comparison L ε) (oldLayout newLayout : Snapshot L)
    (name : String) : Prop :=
  ∃ r, cmp (getProp oldLayout name) (getProp newLayout name) emptyOptions = .ok r

/-- Removing the property `name` from a snapshot. -/
def deleteKey {L : Type} (o : Snapshot L) (name : String) : Snapshot L :=
  o.filter (fun p => !(p.1 == name))

/-- Boolean form of `notOkAt`. -/
def notOkB {L ε : Type} (cmp : Comparison L ε) (oldLayout newLayout : Snapshot L)
    (name : String) : Bool :=
  match cmp (getProp oldLayout name) (getProp newLayout name) emptyOptions with
  | .ok r => !r.ok
  | .error _ => false

/-! ## Part 3: the comparison engine, modelled from the specification -/

/-- Width of a storage slot in bytes. -/
def slotWidth : Nat := 32

/-- Modelled from the spec: a variable annotated with its resolved slot index,
byte offset and occupied byte width (section 3). -/
structure PositionedVariable where
  var : Variable
  slot : Nat
  offset : Nat
  width : Nat
  deriving Repr

/-- The resolver's cursor: current slot index and byte offset within it. -/
structure Cursor where
  slot : Nat
  offset : Nat
  deriving DecidableEq, Repr

/-- The start of the following slot. -/
def Cursor.nextSlot (c : Cursor) : Cursor := ⟨c.slot + 1, 0⟩

/-- Advance to the next slot unless the cursor already stands at a slot start. -/
def Cursor.align (c : Cursor) : Cursor := if c.offset = 0 then c else c.nextSlot

mutual
/-- Modelled from the spec: placement of one type at a cursor (section 4.1).
Returns the recorded (slot, offset, width) and the cursor afterwards.  A struct
starts at a fresh slot boundary, lays out its members and leaves the cursor at
the slot following its last member; a dynamic array, a mapping or a type of
unknown size takes one whole slot; a fixed-size type of width `w` moves to the
next slot first when it does not fit in the remaining bytes, and the cursor
wraps to the next slot when the offset reaches the slot width.  Section 4.1
states the fixed-size rule for widths up to the slot width only; a wider
fixed-size type (a long fixed-size array) can neither share nor fit a slot, so
like a struct it starts at a fresh slot boundary, takes the whole slots its
width needs and leaves the cursor at the slot following them. -/
def place : TypeDescriptor → Cursor → (Nat × Nat × Nat) × Cursor
  | .mk kind size _ _ members, c =>
    match kind, size with
    | .struct, _ =>
      let c0 := c.align
      let next := (placeMembers members c0).align
      ((c0.slot, 0, (next.slot - c0.slot) * slotWidth), next)
    | .dynamicArray, _ => ((c.align.slot, 0, slotWidth), c.align.nextSlot)
    | .mapping, _ => ((c.align.slot, 0, slotWidth), c.align.nextSlot)
    | _, none => ((c.align.slot, 0, slotWidth), c.align.nextSlot)
    | _, some w =>
      if w ≤ slotWidth then
        let c0 := if c.offset + w ≤ slotWidth then c else c.nextSlot
        ((c0.slot, c0.offset, w),
          if slotWidth ≤ c0.offset + w then c0.nextSlot else ⟨c0.slot, c0.offset + w⟩)
      else
        ((c.align.slot, 0, w), ⟨c.align.slot + (w + slotWidth - 1) / slotWidth, 0⟩)
/-- Modelled from the spec: the members of a struct, placed one after the other
by the same rules. -/
def placeMembers : List TypeDescriptor → Cursor → Cursor
  | [], c => c
  | t :: ts, c => placeMembers ts (place t c).2
end

/-- Modelled from the spec: a declared slot hint overrides the computed slot of
the variable and the cursor from there on (section 6). -/
def applyHint (v : Variable) (c : Cursor) : Cursor :=
  match v.slotHint with
  | some s => ⟨s, 0⟩
  | none => c

/-- The resolver's scan from a given cursor. -/
def resolveFrom : Cursor → Layout → List PositionedVariable
  | _, [] => []
  | c, v :: vs =>
    let r := place v.type (applyHint v c)
    ⟨v, r.1.1, r.1.2.1, r.1.2.2⟩ :: resolveFrom r.2 vs

/-- Modelled from the spec: `resolve(layout)` of section 4.1, the cursor
starting at slot 0, offset 0. -/
def resolve (layout : Layout) : List PositionedVariable := resolveFrom ⟨0, 0⟩ layout

/-- Outcome of the oracle: compatible, compatible with a warning, incompatible. -/
inductive Verdict where
  | compatible | caveat | incompatible
  deriving DecidableEq, Repr

/-- The worse of two verdicts. -/
def Verdict.worst : Verdict → Verdict → Verdict
  | .incompatible, _ => .incompatible
  | _, .incompatible => .incompatible
  | .caveat, _ => .caveat
  | _, .caveat => .caveat
  | .compatible, .compatible => .compatible

mutual
/-- Modelled from the spec: rule 1 of the oracle, identical kind, byte width
and composite structure. -/
def sameType : TypeDescriptor → TypeDescriptor → Bool
  | .mk k1 s1 t1 n1 ms1, .mk k2 s2 t2 n2 ms2 =>
    decide (k1 = k2) && decide (s1 = s2) && decide (t1 = t2) && decide (n1 = n2) &&
      sameMembers ms1 ms2
/-- Member lists identical position by position. -/
def sameMembers : List TypeDescriptor → List TypeDescriptor → Bool
  | [], [] => true
  | a :: as, b :: bs => sameType a b && sameMembers as bs
  | _, _ => false
end

mutual
/-- Modelled from the spec: `isCompatible(oldType, newType)` of section 4.2,
rules 1 to 8 in order, the first match winning. -/
def isCompatible : TypeDescriptor → TypeDescriptor → Verdict
  | .mk k1 s1 t1 n1 ms1, .mk k2 s2 t2 n2 ms2 =>
    if sameType (.mk k1 s1 t1 n1 ms1) (.mk k2 s2 t2 n2 ms2) then .compatible
    else match k1, k2 with
      | .primitiveScalar, .primitiveScalar => if s1 = s2 then .caveat else .incompatible
      | .dynamicArray, .dynamicArray => nestedVerdict ms1 ms2
      | .dynamicArray, .mapping => nestedVerdict ms1 ms2
      | .mapping, .dynamicArray => nestedVerdict ms1 ms2
      | .mapping, .mapping => nestedVerdict ms1 ms2
      | .fixedSizeArray, .fixedSizeArray =>
        if n1 = n2 then elementVerdict ms1 ms2 else .incompatible
      | .struct, .struct => membersVerdict ms1 ms2 ⟨0, 0⟩ ⟨0, 0⟩
      | _, _ => .incompatible
  termination_by structural t => t
/-- Modelled from the spec: rule 7, the differ's logic on the member lists of
two structs.  Members are compared pairwise in order, each placed by the
resolver from the start of its struct: an incompatible pair or a pair placed at
different (slot, offset) makes the struct incompatible, a missing member is a
removal, trailing new members are appended ones, and a warning is kept. -/
def membersVerdict : List TypeDescriptor → List TypeDescriptor → Cursor → Cursor → Verdict
  | [], _, _, _ => .compatible
  | _ :: _, [], _, _ => .incompatible
  | a :: as, b :: bs, c1, c2 =>
    match isCompatible a b with
    | .incompatible => .incompatible
    | v =>
      if (place a c1).1.1 = (place b c2).1.1 ∧ (place a c1).1.2.1 = (place b c2).1.2.1 then
        v.worst (membersVerdict as bs (place a c1).2 (place b c2).2)
      else .incompatible
  termination_by structural ms => ms
/-- Modelled from the spec: rule 5, the element check of two fixed-size arrays
of the same length, whose verdict is the array's. -/
def elementVerdict : List TypeDescriptor → List TypeDescriptor → Verdict
  | a :: _, b :: _ => isCompatible a b
  | _, _ => .compatible
  termination_by structural ms => ms
/-- Modelled from the spec: rule 4, the nested check on element or value
types; only its failure propagates. -/
def nestedVerdict : List TypeDescriptor → List TypeDescriptor → Verdict
  | a :: _, b :: _ =>
    match isCompatible a b with
    | .incompatible => .incompatible
    | _ => .compatible
  | _, _ => .compatible
  termination_by structural ms => ms
end

/-- Modelled from the spec: the byte size of a fixed-size kind is present and a
positive integer (sections 3 and 7). -/
def sizeOk : Option Nat → Bool
  | some w => decide (0 < w)
  | none => false

mutual
/-- Modelled from the spec: the fail-fast checks of section 7.  A fixed-size
kind needs a positive byte size, a fixed-size array a positive length, an array
or mapping its element or value type, a struct a non-empty member list. -/
def checkType : TypeDescriptor → Bool
  | .mk kind size _ length members =>
    match kind with
    | .primitiveScalar => sizeOk size
    | .enum => sizeOk size
    | .contractReference => sizeOk size
    | .functionReference => sizeOk size
    | .fixedSizeArray =>
      sizeOk size && decide (0 < length) && decide (members.length = 1) &&
        checkMembers members
    | .dynamicArray => decide (members.length = 1) && checkMembers members
    | .mapping => decide (members.length = 1) && checkMembers members
    | .struct => !members.isEmpty && checkMembers members
/-- Every member descriptor passes the checks. -/
def checkMembers : List TypeDescriptor → Bool
  | [] => true
  | t :: ts => checkType t && checkMembers ts
end

/-- Errors of the engine. -/
inductive Error where
  /-- a variable whose type descriptor cannot be interpreted -/
  | malformedInput (varName : String)
  /-- an argument that is not a layout at all -/
  | notALayout
  deriving DecidableEq, Repr

/-- Modelled from the spec: fail fast on the first variable whose type
descriptor is malformed, naming that variable (section 7). -/
def validate : Layout → Except Error Unit
  | [] => .ok ()
  | v :: vs => if checkType v.type then validate vs else .error (.malformedInput v.name)

/-- Modelled from the spec: the finding of section 4.3 for declaration index
`i`, if either layout has a variable there. -/
def findingAt (old new : List PositionedVariable) (i : Nat) : Option Finding :=
  match old[i]?, new[i]? with
  | some o, some n =>
    match isCompatible o.var.type n.var.type with
    | .incompatible => some ⟨.UNSAFE_TYPE_CHANGE, some o.var, some n.var, "type changed"⟩
    | .caveat =>
      if o.slot = n.slot ∧ o.offset = n.offset then
        some ⟨.WARNING, some o.var, some n.var, "same width, meaning changed"⟩
      else some ⟨.UNSAFE_RESIZE, some o.var, some n.var, "position shifted"⟩
    | .compatible =>
      if o.slot = n.slot ∧ o.offset = n.offset then
        some ⟨.OK, some o.var, some n.var, "unchanged"⟩
      else some ⟨.UNSAFE_RESIZE, some o.var, some n.var, "position shifted"⟩
  | some o, none => some ⟨.UNSAFE_REMOVE, some o.var, none, "removed"⟩
  | none, some n => some ⟨.OK, none, some n.var, "appended"⟩
  | none, none => none

/-- Modelled from the spec: the positional walk of section 4.3 over indices
`0 .. max(len old, len new) - 1`. -/
def differ (old new : List PositionedVariable) : Report :=
  ⟨(List.range (max old.length new.length)).filterMap (findingAt old new)⟩

/-- Modelled from the spec: `diff(oldLayout, newLayout)` of section 4.3; both
layouts are checked, resolved once, then walked by declaration index. -/
def diff (oldLayout newLayout : Layout) : Except Error Report :=
  match validate oldLayout, validate newLayout with
  | .error e, _ => .error e
  | .ok _, .error e => .error e
  | .ok _, .ok _ => .ok (differ (resolve oldLayout) (resolve newLayout))

/-- Modelled from the spec: the routine `getStorageUpgradeReport` the script
imports from `@openzeppelin/upgrades-core` (absent from the sources), as the
engine of section 4.3 applied to two snapshot entries; an argument that is not
a layout is the malformed-input error of section 7. -/
def getStorageUpgradeReport : Comparison Layout Error
  | .json o, .json n, _ => diff o n
  | _, _, _ => .error .notALayout

/-! ## Sample inputs -/

/-- A stand-in comparison over numbered entries: entry 0 is malformed, equal
entries compare ok, different ones do not, anything that is not an entry is
rejected. -/
def sampleCmp : Comparison Nat String := fun a b _ =>
  match a, b with
  | .json 0, _ => .error "malformed"
  | .json x, .json y =>
    if x = y then .ok ⟨[]⟩ else .ok ⟨[⟨.UNSAFE_TYPE_CHANGE, none, none, "changed"⟩]⟩
  | _, _ => .error "not a layout"

/-- A stand-in comparison that never throws: equal arguments compare ok,
different ones do not. -/
def totalCmp : Comparison Nat String := fun a b _ =>
  if a = b then .ok ⟨[]⟩ else .ok ⟨[⟨.UNSAFE_TYPE_CHANGE, none, none, "changed"⟩]⟩

/-- A ref snapshot with a unit that is unchanged, one that changed and one that
was removed. -/
def sampleRef : Snapshot Nat := [("A", 1), ("B", 2), ("Gone", 3)]

/-- The ref snapshot `sampleRef` with its keys in another order. -/
def sampleRefReordered : Snapshot Nat := [("Gone", 3), ("B", 2), ("A", 1)]

/-- A head snapshot for `sampleRef`, with a newly added unit. -/
def sampleHead : Snapshot Nat := [("A", 1), ("B", 5), ("New", 7)]

/-- The head snapshot `sampleHead` with other newly added units. -/
def sampleHeadOther : Snapshot Nat := [("Extra", 9), ("B", 5), ("A", 1)]

/-- A ref snapshot whose second unit is malformed. -/
def brokenRef : Snapshot Nat := [("A", 1), ("Bad", 0), ("C", 2)]

/-- A head snapshot for `brokenRef`; unit `C` changed. -/
def brokenHead : Snapshot Nat := [("A", 1), ("Bad", 0), ("C", 5)]

/-- A ref snapshot with a unit called `toString`. -/
def protoRef : Snapshot Nat := [("toString", 4)]

/-- A head snapshot without any unit. -/
def protoHead : Snapshot Nat := []

/-- The type `uint256`. -/
def uint256 : TypeDescriptor := .mk .primitiveScalar (some 32) "uint" 0 []

/-- The type `uint128`. -/
def uint128 : TypeDescriptor := .mk .primitiveScalar (some 16) "uint" 0 []

/-- A layout of two packed variables and a full-slot one. -/
def sampleLayout : Layout :=
  [⟨"a", uint128, none⟩, ⟨"b", uint128, none⟩, ⟨"c", uint256, none⟩]

/-- The type `address` taken at the byte width of `uint128`, as in the
example of section 8. -/
def address16 : TypeDescriptor := .mk .primitiveScalar (some 16) "address" 0 []

/-- A variable to append. -/
def sampleVariable : Variable := ⟨"d", uint256, none⟩

/-- The type `uint256[50]`, 1600 bytes wide. -/
def uint256x50 : TypeDescriptor := .mk .fixedSizeArray (some 1600) "" 50 [uint256]

/-- The layout of an upgradeable unit: the sample variables followed by a
reserved gap of fifty slots. -/
def tokenLayout : Layout :=
  [⟨"a", uint128, none⟩, ⟨"b", uint128, none⟩, ⟨"c", uint256, none⟩,
   ⟨"__gap", uint256x50, none⟩]

/-- A struct with one member. -/
def innerStruct : TypeDescriptor := .mk .struct none "" 0 [uint256]

/-- The struct `innerStruct` with a member appended. -/
def innerStructGrown : TypeDescriptor := .mk .struct none "" 0 [uint256, uint256]

/-- A snapshot holding one unit with the layout `tokenLayout`. -/
def tokenSnapshot : Snapshot Layout := [("Token", tokenLayout)]

/-- The snapshot `tokenSnapshot` after a variable was appended to the unit. -/
def tokenAppended : Snapshot Layout := [("Token", tokenLayout ++ [sampleVariable])]

/-- The snapshot `tokenSnapshot` after the unit lost its last variable. -/
def tokenShortened : Snapshot Layout := [("Token", tokenLayout.dropLast)]

/-! ## Part 4: theorems -/

section Script

variable {L ε : Type}

theorem notOkAt_iff (cmp : Comparison L ε) (o n : Snapshot L) (name : String) :
    notOkAt cmp o n name ↔ notOkB cmp o n name = true := by
  unfold notOkAt notOkB
  cases h : cmp (getProp o name) (getProp n name) emptyOptions with
  | error e => simp
  | ok r => cases hr : r.ok <;> simp [hr]

theorem iteration_skip (cmp : Comparison L ε) (o n : Snapshot L) (st : Process L ε)
    (name : String) (h : hasProperty n name = false) : iteration cmp o n st name = st := by
  simp [iteration, h]

theorem iteration_ok (cmp : Comparison L ε) (o n : Snapshot L) (st : Process L ε)
    (name : String) (r : Report) (h : hasProperty n name = true)
    (hr : cmp (getProp o name) (getProp n name) emptyOptions = .ok r) :
    iteration cmp o n st name =
      ⟨if r.ok then st.exitCode else some 1, st.calls ++ [callArgs o n name], st.thrown⟩ := by
  simp only [iteration, h, if_true, hr, callArgs]
  cases r.ok <;> simp

theorem iteration_error (cmp : Comparison L ε) (o n : Snapshot L) (st : Process L ε)
    (name : String) (e : ε) (h : hasProperty n name = true)
    (hr : cmp (getProp o name) (getProp n name) emptyOptions = .error e) :
    iteration cmp o n st name = ⟨st.exitCode, st.calls ++ [callArgs o n name], some e⟩ := by
  simp only [iteration, h, if_true, hr, callArgs]

/-- An iteration leaves `process.exitCode` as it was or sets it to 1. -/
theorem iteration_exitCode (cmp : Comparison L ε) (o n : Snapshot L) (st : Process L ε)
    (name : String) :
    (iteration cmp o n st name).exitCode = st.exitCode ∨
      (iteration cmp o n st name).exitCode = some 1 := by
  cases h : hasProperty n name with
  | false => left; rw [iteration_skip cmp o n st name h]
  | true =>
    cases hr : cmp (getProp o name) (getProp n name) emptyOptions with
    | error e => left; rw [iteration_error cmp o n st name e h hr]
    | ok r =>
      rw [iteration_ok cmp o n st name r h hr]
      cases r.ok <;> simp

/-- The loop leaves `process.exitCode` as it was or sets it to 1. -/
theorem forInLoop_exitCode (cmp : Comparison L ε) (o n : Snapshot L) (ns : List String) :
    ∀ st : Process L ε, (forInLoop cmp o n ns st).exitCode = st.exitCode ∨
      (forInLoop cmp o n ns st).exitCode = some 1 := by
  induction ns with
  | nil => intro st; left; rfl
  | cons name rest ih =>
    intro st
    simp only [forInLoop]
    cases ht : (iteration cmp o n st name).thrown with
    | some e => simpa using iteration_exitCode cmp o n st name
    | none =>
      simp only
      rcases ih (iteration cmp o n st name) with h | h
      · rcases iteration_exitCode cmp o n st name with h2 | h2
        · left; rw [h, h2]
        · right; rw [h, h2]
      · right; exact h

/-- When every report the loop can receive is ok, `process.exitCode` is never
assigned, whether or not a comparison throws. -/
theorem forInLoop_exitCode_of_all_ok (cmp : Comparison L ε) (o n : Snapshot L)
    (ns : List String)
    (h : ∀ name ∈ ns, ∀ r,
      cmp (getProp o name) (getProp n name) emptyOptions = .ok r → r.ok = true) :
    ∀ st : Process L ε, (forInLoop cmp o n ns st).exitCode = st.exitCode := by
  induction ns with
  | nil => intro st; rfl
  | cons name rest ih =>
    intro st
    have hit : (iteration cmp o n st name).exitCode = st.exitCode := by
      cases hp : hasProperty n name with
      | false => rw [iteration_skip cmp o n st name hp]
      | true =>
        cases hr : cmp (getProp o name) (getProp n name) emptyOptions with
        | error e => rw [iteration_error cmp o n st name e hp hr]
        | ok r =>
          rw [iteration_ok cmp o n st name r hp hr]
          simp [h name (List.mem_cons_self _ _) r hr]
    simp only [forInLoop]
    cases ht : (iteration cmp o n st name).thrown with
    | some e => exact hit
    | none =>
      simp only
      rw [ih (fun x hx => h x (List.mem_cons_of_mem _ hx)), hit]

/-- Splitting the loop at a point of its name list. -/
theorem forInLoop_append (cmp : Comparison L ε) (o n : Snapshot L) (xs ys : List String) :
    ∀ st : Process L ε, st.thrown = none →
      forInLoop cmp o n (xs ++ ys) st =
        if (forInLoop cmp o n xs st).thrown.isSome then forInLoop cmp o n xs st
        else forInLoop cmp o n ys (forInLoop cmp o n xs st) := by
  induction xs with
  | nil => intro st hst; simp [forInLoop, hst]
  | cons name rest ih =>
    intro st _
    simp only [List.cons_append, forInLoop]
    cases ht : (iteration cmp o n st name).thrown with
    | some e => simp [ht]
    | none => simpa using ih _ ht

/-- The run of the loop when no comparison it reaches throws. -/
theorem forInLoop_of_returns (cmp : Comparison L ε) (o n : Snapshot L) (ns : List String) :
    ∀ st : Process L ε, st.thrown = none →
      (∀ name ∈ ns, hasProperty n name = true → returnsAt cmp o n name) →
      forInLoop cmp o n ns st =
        ⟨if ns.any (fun x => hasProperty n x && notOkB cmp o n x) then some 1 else st.exitCode,
         st.calls ++ (ns.filter (fun x => hasProperty n x)).map (callArgs o n), none⟩ := by
  induction ns with
  | nil =>
    intro st hst _
    cases st
    simp_all [forInLoop]
  | cons name rest ih =>
    intro st hst hret
    have hrest : ∀ x ∈ rest, hasProperty n x = true → returnsAt cmp o n x :=
      fun x hx => hret x (List.mem_cons_of_mem _ hx)
    simp only [forInLoop]
    cases h : hasProperty n name with
    | false =>
      rw [iteration_skip cmp o n st name h, hst]
      simp only
      rw [ih st hst hrest]
      simp [h]
    | true =>
      obtain ⟨r, hr⟩ := hret name (List.mem_cons_self _ _) h
      rw [iteration_ok cmp o n st name r h hr]
      simp only [hst]
      rw [ih _ rfl hrest]
      have hb : notOkB cmp o n name = !r.ok := by simp [notOkB, hr]
      cases hok : r.ok <;> simp [h, hb, hok]

theorem ownProp_isSome_iff (o : Snapshot L) (name : String) :
    (ownProp o name).isSome = true ↔ name ∈ ownKeys o := by
  unfold ownProp ownKeys
  simp only [Option.isSome_map', List.find?_isSome, List.mem_map]
  constructor
  · rintro ⟨p, hp, hn⟩
    exact ⟨p, hp, by simpa using hn⟩
  · rintro ⟨p, hp, hn⟩
    exact ⟨p, hp, by simp [hn]⟩

/-- The test `name in o` holds for the own keys and for the property names of
`Object.prototype`. -/
theorem hasProperty_iff (o : Snapshot L) (name : String) :
    hasProperty o name = true ↔ name ∈ ownKeys o ∨ name ∈ objectPrototypeProps := by
  unfold hasProperty
  rw [Bool.or_eq_true, ownProp_isSome_iff]
  simp [List.contains_iff_exists_mem_beq]

theorem any_shared_iff (cmp : Comparison L ε) (o n : Snapshot L) (ns : List String) :
    ns.any (fun x => hasProperty n x && notOkB cmp o n x) = true ↔
      ∃ name ∈ ns, hasProperty n name = true ∧ notOkAt cmp o n name := by
  simp [List.any_eq_true, notOkAt_iff]

theorem main_of_returns (cmp : Comparison L ε) (o n : Snapshot L)
    (h : ∀ name ∈ sharedNames o n, returnsAt cmp o n name) :
    main cmp o n =
      ⟨if (forInKeys o).any (fun x => hasProperty n x && notOkB cmp o n x) then some 1
        else none,
       (sharedNames o n).map (callArgs o n), none⟩ := by
  have h2 : ∀ name ∈ forInKeys o, hasProperty n name = true → returnsAt cmp o n name := by
    intro name hm hp
    exact h name (by simp [sharedNames, hm, hp])
  simpa [main, Process.initial, sharedNames] using
    forInLoop_of_returns cmp o n (forInKeys o) Process.initial rfl h2

/-- C1: when no comparison throws, the script sets `process.exitCode` to 1 if
and only if some unit name of the ref snapshot that is also in the head
snapshot (`name in newLayout`) has a report with `ok = false`; when there is no
such name the exit code stays untouched and the process ends with status 0.
When every name the loop compares is a key of the head snapshot, the names in
question are the keys of both snapshots. -/
theorem exitCode_one_iff_some_report_not_ok (cmp : Comparison L ε)
    (oldLayout newLayout : Snapshot L)
    (h : ∀ name ∈ sharedNames oldLayout newLayout, returnsAt cmp oldLayout newLayout name) :
    ((main cmp oldLayout newLayout).exitCode = some 1 ↔
        ∃ name ∈ forInKeys oldLayout, hasProperty newLayout name = true ∧
          notOkAt cmp oldLayout newLayout name) ∧
      ((¬ ∃ name ∈ forInKeys oldLayout, hasProperty newLayout name = true ∧
          notOkAt cmp oldLayout newLayout name) →
        (main cmp oldLayout newLayout).exitCode = none ∧
          (main cmp oldLayout newLayout).exitStatus = 0) ∧
      ((∀ name ∈ sharedNames oldLayout newLayout, name ∈ ownKeys newLayout) →
        ((main cmp oldLayout newLayout).exitCode = some 1 ↔
          ∃ name, name ∈ ownKeys oldLayout ∧ name ∈ ownKeys newLayout ∧
            notOkAt cmp oldLayout newLayout name)) := by
  rw [main_of_returns cmp oldLayout newLayout h, ← any_shared_iff]
  refine ⟨?_, ?_, ?_⟩
  · cases hb : (forInKeys oldLayout).any
        (fun x => hasProperty newLayout x && notOkB cmp oldLayout newLayout x) <;> simp
  · cases hb : (forInKeys oldLayout).any
        (fun x => hasProperty newLayout x && notOkB cmp oldLayout newLayout x) <;>
      simp [Process.exitStatus]
  · intro hown
    have hiff : (forInKeys oldLayout).any
          (fun x => hasProperty newLayout x && notOkB cmp oldLayout newLayout x) = true ↔
        ∃ name, name ∈ ownKeys oldLayout ∧ name ∈ ownKeys newLayout ∧
          notOkAt cmp oldLayout newLayout name := by
      rw [any_shared_iff]
      constructor
      · rintro ⟨name, hm, hp, hn⟩
        exact ⟨name, hm, hown name (List.mem_filter.mpr ⟨hm, hp⟩), hn⟩
      · rintro ⟨name, hm, hk, hn⟩
        exact ⟨name, hm, (hasProperty_iff newLayout name).mpr (Or.inl hk), hn⟩
    rw [← hiff]
    cases hb : (forInKeys oldLayout).any
        (fun x => hasProperty newLayout x && notOkB cmp oldLayout newLayout x) <;> simp

/-- C8: when no comparison throws, the comparisons invoked are exactly those of
the names of the ref snapshot that are in the head snapshot, one per name, in
the ref snapshot's iteration order, each with the arguments
`(oldLayout[name], newLayout[name], {})`, and the loop runs to its end. -/
theorem calls_are_shared_names_in_order (cmp : Comparison L ε)
    (oldLayout newLayout : Snapshot L)
    (h : ∀ name ∈ sharedNames oldLayout newLayout, returnsAt cmp oldLayout newLayout name) :
    (main cmp oldLayout newLayout).calls =
        (sharedNames oldLayout newLayout).map
          (fun name => (getProp oldLayout name, getProp newLayout name, emptyOptions)) ∧
      (main cmp oldLayout newLayout).thrown = none := by
  rw [main_of_returns cmp oldLayout newLayout h]
  exact ⟨rfl, rfl⟩

/-- C10: after any number `j` of names the exit code is untouched or 1, and
once it is 1 it is still 1 after any further `d` names. -/
theorem exitCode_only_raised (cmp : Comparison L ε) (oldLayout newLayout : Snapshot L)
    (j d : Nat) :
    ((forInLoop cmp oldLayout newLayout ((forInKeys oldLayout).take j)
          Process.initial).exitCode = none ∨
        (forInLoop cmp oldLayout newLayout ((forInKeys oldLayout).take j)
          Process.initial).exitCode = some 1) ∧
      ((forInLoop cmp oldLayout newLayout ((forInKeys oldLayout).take j)
          Process.initial).exitCode = some 1 →
        (forInLoop cmp oldLayout newLayout ((forInKeys oldLayout).take (j + d))
          Process.initial).exitCode = some 1) := by
  refine ⟨?_, ?_⟩
  · simpa [Process.initial] using
      forInLoop_exitCode cmp oldLayout newLayout ((forInKeys oldLayout).take j)
        Process.initial
  · intro h1
    have hsplit : (forInKeys oldLayout).take (j + d) =
        (forInKeys oldLayout).take j ++ ((forInKeys oldLayout).drop j).take d := by
      rw [List.take_add]
    rw [hsplit, forInLoop_append cmp oldLayout newLayout _ _ Process.initial rfl]
    split
    · exact h1
    · rcases forInLoop_exitCode cmp oldLayout newLayout
          (((forInKeys oldLayout).drop j).take d)
          (forInLoop cmp oldLayout newLayout ((forInKeys oldLayout).take j)
            Process.initial) with h2 | h2
      · rw [h2, h1]
      · exact h2

/-- The loop reads the head snapshot only through the own properties of the
names it walks. -/
theorem forInLoop_congr_new (cmp : Comparison L ε) (o n1 n2 : Snapshot L)
    (ns : List String) (h : ∀ name ∈ ns, ownProp n1 name = ownProp n2 name) :
    ∀ st : Process L ε, forInLoop cmp o n1 ns st = forInLoop cmp o n2 ns st := by
  induction ns with
  | nil => intro st; rfl
  | cons name rest ih =>
    intro st
    have hn : ownProp n1 name = ownProp n2 name := h name (List.mem_cons_self _ _)
    have hit : iteration cmp o n1 st name = iteration cmp o n2 st name := by
      simp only [iteration, hasProperty, getProp, hn]
    simp only [forInLoop, hit]
    cases (iteration cmp o n2 st name).thrown with
    | some e => rfl
    | none => exact ih (fun x hx => h x (List.mem_cons_of_mem _ hx)) _

/-- The loop reads the ref snapshot only through the properties of the names
it walks. -/
theorem forInLoop_congr_old (cmp : Comparison L ε) (o1 o2 n : Snapshot L)
    (ns : List String) (h : ∀ name ∈ ns, getProp o1 name = getProp o2 name) :
    ∀ st : Process L ε, forInLoop cmp o1 n ns st = forInLoop cmp o2 n ns st := by
  induction ns with
  | nil => intro st; rfl
  | cons name rest ih =>
    intro st
    have hn : getProp o1 name = getProp o2 name := h name (List.mem_cons_self _ _)
    have hit : iteration cmp o1 n st name = iteration cmp o2 n st name := by
      simp only [iteration, hn]
    simp only [forInLoop, hit]
    cases (iteration cmp o2 n st name).thrown with
    | some e => rfl
    | none => exact ih (fun x hx => h x (List.mem_cons_of_mem _ hx)) _

/-- Names for which `name in newLayout` is false can be dropped from the walk. -/
theorem forInLoop_filter_absent (cmp : Comparison L ε) (o n : Snapshot L) (name : String)
    (habs : hasProperty n name = false) (ns : List String) :
    ∀ st : Process L ε, st.thrown = none →
      forInLoop cmp o n (ns.filter (fun x => !(x == name))) st = forInLoop cmp o n ns st := by
  induction ns with
  | nil => intro st _; rfl
  | cons x rest ih =>
    intro st hst
    by_cases hx : x = name
    · subst hx
      simp only [List.filter_cons, beq_self_eq_true, Bool.not_true, Bool.false_eq_true,
        if_false, forInLoop, iteration_skip cmp o n st x habs, hst]
      exact ih st hst
    · have hb : (!(x == name)) = true := by simp [hx]
      simp only [List.filter_cons, hb, if_true, forInLoop]
      cases ht : (iteration cmp o n st x).thrown with
      | some e => rfl
      | none => exact ih _ ht

theorem ownProp_deleteKey_ne (o : Snapshot L) (name x : String) (hx : x ≠ name) :
    ownProp (deleteKey o name) x = ownProp o x := by
  unfold ownProp deleteKey
  rw [List.find?_filter]
  congr 2
  funext a
  by_cases ha : a.1 = x
  · simp [ha, hx]
  · simp [ha]

theorem forInKeys_deleteKey (o : Snapshot L) (name : String) :
    forInKeys (deleteKey o name) = (forInKeys o).filter (fun x => !(x == name)) := by
  simp [forInKeys, ownKeys, deleteKey, List.filter_map, Function.comp_def]

/-- A unit name of the ref snapshot for which `name in newLayout` is false has
no effect on the run: deleting it from the ref snapshot gives the same final
state. -/
theorem main_deleteKey_of_absent (cmp : Comparison L ε) (oldLayout newLayout : Snapshot L)
    (name : String) (habs : hasProperty newLayout name = false) :
    main cmp (deleteKey oldLayout name) newLayout = main cmp oldLayout newLayout := by
  unfold main
  rw [forInKeys_deleteKey,
    forInLoop_congr_old cmp (deleteKey oldLayout name) oldLayout newLayout _ ?_,
    forInLoop_filter_absent cmp oldLayout newLayout name habs _ _ rfl]
  intro x hx
  have hne : x ≠ name := by
    have := (List.mem_filter.mp hx).2
    simpa using this
  simp only [getProp, ownProp_deleteKey_ne oldLayout name x hne]

/-- C4: two head snapshots with the same entries for every name of the ref
snapshot give the same run: the same comparisons on the same arguments in the
same order, the same exit code, the same outcome. -/
theorem head_only_names_have_no_effect (cmp : Comparison L ε)
    (oldLayout newLayout1 newLayout2 : Snapshot L)
    (h : ∀ name ∈ forInKeys oldLayout, ownProp newLayout1 name = ownProp newLayout2 name) :
    main cmp oldLayout newLayout1 = main cmp oldLayout newLayout2 ∧
      (main cmp oldLayout newLayout1).calls = (main cmp oldLayout newLayout2).calls ∧
      (main cmp oldLayout newLayout1).exitCode = (main cmp oldLayout newLayout2).exitCode := by
  have hm : main cmp oldLayout newLayout1 = main cmp oldLayout newLayout2 :=
    forInLoop_congr_new cmp oldLayout newLayout1 newLayout2 _ h _
  exact ⟨hm, by rw [hm], by rw [hm]⟩

theorem ownProp_eq_some_iff (o : Snapshot L) (hnd : (ownKeys o).Nodup) (x : String) (v : L) :
    ownProp o x = some v ↔ (x, v) ∈ o := by
  induction o with
  | nil => simp [ownProp]
  | cons p rest ih =>
    have hnd2 : p.1 ∉ ownKeys rest ∧ (ownKeys rest).Nodup := by
      simpa [ownKeys] using hnd
    have ih2 := ih hnd2.2
    by_cases hp : p.1 = x
    · have hnot : (x, v) ∉ rest := by
        intro hm
        apply hnd2.1
        rw [hp]
        exact List.mem_map.mpr ⟨(x, v), hm, rfl⟩
      constructor
      · intro h
        have hv : p.2 = v := by simpa [ownProp, List.find?_cons, hp] using h
        rw [← hp, ← hv]
        exact List.mem_cons_self _ _
      · intro h
        rcases List.mem_cons.mp h with h1 | h1
        · simp [ownProp, List.find?_cons, ← h1]
        · exact absurd h1 hnot
    · have hne : (x, v) ≠ p := fun h => hp (by rw [← h])
      have hstep : ownProp (p :: rest) x = ownProp rest x := by
        simp [ownProp, List.find?_cons, hp]
      rw [hstep, ih2, List.mem_cons]
      constructor
      · exact fun h => Or.inr h
      · rintro (h | h)
        · exact absurd h hne
        · exact h

theorem ownProp_perm (o1 o2 : Snapshot L) (hperm : o1.Perm o2) (hnd : (ownKeys o1).Nodup)
    (x : String) : ownProp o1 x = ownProp o2 x := by
  have hnd2 : (ownKeys o2).Nodup := (hperm.map Prod.fst).nodup_iff.mp hnd
  apply Option.ext
  intro v
  simp only [Option.mem_def]
  rw [ownProp_eq_some_iff o1 hnd, ownProp_eq_some_iff o2 hnd2]
  exact hperm.mem_iff

/-- C9: for a comparison that never throws, two ref snapshots holding the same
name-to-layout entries in different key orders end with the same exit code
against the same head snapshot. -/
theorem exitCode_independent_of_ref_order (cmp : Comparison L ε)
    (oldLayout1 oldLayout2 newLayout : Snapshot L)
    (hperm : oldLayout1.Perm oldLayout2) (hnd : (ownKeys oldLayout1).Nodup)
    (hcmp : ∀ a b opts, ∃ r, cmp a b opts = .ok r) :
    (main cmp oldLayout1 newLayout).exitCode = (main cmp oldLayout2 newLayout).exitCode ∧
      (main cmp oldLayout1 newLayout).exitStatus =
        (main cmp oldLayout2 newLayout).exitStatus := by
  have hany : (forInKeys oldLayout1).any
        (fun x => hasProperty newLayout x && notOkB cmp oldLayout1 newLayout x) =
      (forInKeys oldLayout2).any
        (fun x => hasProperty newLayout x && notOkB cmp oldLayout2 newLayout x) := by
    rw [Bool.eq_iff_iff, any_shared_iff, any_shared_iff]
    have hk : ∀ x, x ∈ forInKeys oldLayout1 ↔ x ∈ forInKeys oldLayout2 :=
      fun x => (hperm.map Prod.fst).mem_iff
    have hg : ∀ x, getProp oldLayout1 x = getProp oldLayout2 x := by
      intro x
      simp only [getProp, ownProp_perm oldLayout1 oldLayout2 hperm hnd x]
    constructor
    · rintro ⟨x, hx, hp, hn⟩
      exact ⟨x, (hk x).mp hx, hp, by simpa [notOkAt, hg x] using hn⟩
    · rintro ⟨x, hx, hp, hn⟩
      exact ⟨x, (hk x).mpr hx, hp, by simpa [notOkAt, hg x] using hn⟩
  rw [main_of_returns cmp oldLayout1 newLayout (fun x _ => hcmp _ _ _),
    main_of_returns cmp oldLayout2 newLayout (fun x _ => hcmp _ _ _), hany]
  exact ⟨rfl, rfl⟩

/-- The run when the comparison of `name` throws: the names before it are
handled as usual, the call for `name` is the last one, the names after it are
never reached. -/
theorem main_of_throw (cmp : Comparison L ε) (o n : Snapshot L)
    (pre post : List String) (name : String) (e : ε)
    (hkeys : forInKeys o = pre ++ name :: post)
    (hpre : ∀ x ∈ pre, hasProperty n x = true → returnsAt cmp o n x)
    (hin : hasProperty n name = true)
    (hthrow : cmp (getProp o name) (getProp n name) emptyOptions = .error e) :
    main cmp o n =
      ⟨if pre.any (fun x => hasProperty n x && notOkB cmp o n x) then some 1 else none,
       (pre.filter (fun x => hasProperty n x)).map (callArgs o n) ++ [callArgs o n name],
       some e⟩ := by
  unfold main
  rw [hkeys, forInLoop_append cmp o n pre (name :: post) Process.initial rfl,
    forInLoop_of_returns cmp o n pre Process.initial rfl hpre]
  simp only [Option.isSome_none, Bool.false_eq_true, if_false, forInLoop]
  rw [iteration_error cmp o n _ name e hin hthrow]
  simp [Process.initial]

theorem ownProp_of_mem_keys (o : Snapshot L) (name : String) (h : name ∈ ownKeys o) :
    ∃ v, ownProp o name = some v ∧ ∃ p ∈ o, p.2 = v := by
  unfold ownProp
  cases hf : o.find? (fun p => p.1 == name) with
  | none =>
    rw [List.find?_eq_none] at hf
    obtain ⟨p, hp, hpn⟩ := List.mem_map.mp h
    exact absurd (by simp [hpn]) (hf p hp)
  | some p => exact ⟨p.2, rfl, p, List.mem_of_find?_eq_some hf, rfl⟩

theorem lookup_json (o n : Snapshot L) (name : String) (a b : L)
    (ha : ownProp o name = some a) (hb : ownProp n name = some b) :
    hasProperty n name = true ∧ callArgs o n name = (.json a, .json b, emptyOptions) ∧
      getProp o name = .json a ∧ getProp n name = .json b := by
  simp [hasProperty, callArgs, getProp, ha, hb]

/-- C2, as amended: an error thrown while comparing one unit is not caught and
ends the loop.  The shared names before it in the ref snapshot's order have
been compared (a not-ok report among them has set the exit code to 1), the
failing comparison is the last one invoked, no later name is compared, and the
process ends with status 1. -/
theorem comparison_error_aborts_loop (cmp : Comparison L ε)
    (oldLayout newLayout : Snapshot L) (pre post : List String) (name : String) (e : ε)
    (hkeys : forInKeys oldLayout = pre ++ name :: post)
    (hpre : ∀ x ∈ pre, hasProperty newLayout x = true → returnsAt cmp oldLayout newLayout x)
    (hin : hasProperty newLayout name = true)
    (hthrow : cmp (getProp oldLayout name) (getProp newLayout name) emptyOptions = .error e) :
    (main cmp oldLayout newLayout).thrown = some e ∧
      (main cmp oldLayout newLayout).calls =
        (pre.filter (fun x => hasProperty newLayout x)).map
            (fun x => (getProp oldLayout x, getProp newLayout x, emptyOptions)) ++
          [(getProp oldLayout name, getProp newLayout name, emptyOptions)] ∧
      ((main cmp oldLayout newLayout).exitCode = some 1 ↔
        ∃ x ∈ pre, hasProperty newLayout x = true ∧ notOkAt cmp oldLayout newLayout x) ∧
      (main cmp oldLayout newLayout).exitStatus = 1 := by
  rw [main_of_throw cmp oldLayout newLayout pre post name e hkeys hpre hin hthrow,
    ← any_shared_iff]
  refine ⟨rfl, rfl, ?_, rfl⟩
  cases pre.any (fun x => hasProperty newLayout x && notOkB cmp oldLayout newLayout x) <;> simp

end Script

section Engine

mutual
theorem sameType_refl : ∀ t : TypeDescriptor, sameType t t = true
  | .mk k s t n ms => by simp [sameType, sameMembers_refl ms]
theorem sameMembers_refl : ∀ ms : List TypeDescriptor, sameMembers ms ms = true
  | [] => by simp [sameMembers]
  | a :: as => by simp [sameMembers, sameType_refl a, sameMembers_refl as]
end

/-- Rule 1 of the oracle applies to a type compared with itself. -/
theorem isCompatible_self (t : TypeDescriptor) : isCompatible t t = .compatible := by
  cases t with
  | mk k s tg n ms => simp [isCompatible, sameType_refl]

theorem length_resolveFrom (l : Layout) : ∀ c : Cursor, (resolveFrom c l).length = l.length := by
  induction l with
  | nil => intro c; rfl
  | cons v vs ih => intro c; simp [resolveFrom, ih]

/-- The resolver is a left-to-right scan: the positions of a prefix do not
depend on what follows. -/
theorem resolveFrom_append (a b : Layout) :
    ∀ c : Cursor, ∃ tail, resolveFrom c (a ++ b) = resolveFrom c a ++ tail ∧
      tail.length = b.length := by
  induction a with
  | nil => intro c; exact ⟨resolveFrom c b, by simp [resolveFrom], length_resolveFrom b c⟩
  | cons v vs ih =>
    intro c
    obtain ⟨tail, h1, h2⟩ := ih (place v.type (applyHint v c)).2
    exact ⟨tail, by simp [resolveFrom, h1], h2⟩

theorem validate_append (a b : Layout) :
    validate (a ++ b) = .ok () ↔ validate a = .ok () ∧ validate b = .ok () := by
  induction a with
  | nil => simp [validate]
  | cons v vs ih =>
    cases h : checkType v.type <;> simp [validate, h, ih]

theorem findingAt_same (old new : List PositionedVariable) (i : Nat) (x : PositionedVariable)
    (ho : old[i]? = some x) (hn : new[i]? = some x) :
    findingAt old new i = some ⟨.OK, some x.var, some x.var, "unchanged"⟩ := by
  simp [findingAt, ho, hn, isCompatible_self]

/-- Comparing resolved variables with themselves followed by appended ones
gives only findings of severity OK. -/
theorem differ_append_all_OK (ps tail : List PositionedVariable) :
    ∀ f ∈ (differ ps (ps ++ tail)).findings, f.severity = .OK := by
  intro f hf
  simp only [differ, List.mem_filterMap, List.mem_range] at hf
  obtain ⟨i, _, hfi⟩ := hf
  by_cases hi : i < ps.length
  · have ho : ps[i]? = some ps[i] := List.getElem?_eq_getElem hi
    have hn : (ps ++ tail)[i]? = some ps[i] := by
      rw [List.getElem?_append_left hi, ho]
    rw [findingAt_same ps (ps ++ tail) i ps[i] ho hn] at hfi
    cases hfi
    rfl
  · have ho : ps[i]? = none := List.getElem?_eq_none (Nat.le_of_not_lt hi)
    cases hn : (ps ++ tail)[i]? with
    | none => simp [findingAt, ho, hn] at hfi
    | some y =>
      simp only [findingAt, ho, hn, Option.some.injEq] at hfi
      rw [← hfi]

/-- Comparing resolved variables followed by one more against themselves
records the removal of the extra one. -/
theorem differ_remove_last (ps : List PositionedVariable) (x : PositionedVariable) :
    (⟨.UNSAFE_REMOVE, some x.var, none, "removed"⟩ : Finding) ∈
      (differ (ps ++ [x]) ps).findings := by
  simp only [differ, List.mem_filterMap, List.mem_range]
  refine ⟨ps.length, by simp, ?_⟩
  have ho : (ps ++ [x])[ps.length]? = some x := by simp
  have hn : ps[ps.length]? = none := List.getElem?_eq_none (Nat.le_refl _)
  simp [findingAt, ho, hn]

theorem ok_of_all_OK (r : Report) (h : ∀ f ∈ r.findings, f.severity = .OK) : r.ok = true := by
  simp only [Report.ok, List.all_eq_true]
  intro f hf
  simp [h f hf, Severity.isUnsafe]

theorem not_ok_of_mem (r : Report) (f : Finding) (hf : f ∈ r.findings)
    (hu : f.severity.isUnsafe = true) : r.ok = false := by
  cases hok : r.ok with
  | false => rfl
  | true =>
    simp only [Report.ok, List.all_eq_true] at hok
    have := hok f hf
    simp [hu] at this

theorem diff_of_valid (a b : Layout) (ha : validate a = .ok ()) (hb : validate b = .ok ()) :
    diff a b = .ok (differ (resolve a) (resolve b)) := by
  simp [diff, ha, hb]

/-- A valid layout against itself with variables appended: the report exists
and all its findings have severity OK. -/
theorem diff_append (a b : Layout) (h : validate (a ++ b) = .ok ()) :
    ∃ r, diff a (a ++ b) = .ok r ∧ r.ok = true ∧ ∀ f ∈ r.findings, f.severity = .OK := by
  obtain ⟨tail, ht, _⟩ := resolveFrom_append a b ⟨0, 0⟩
  refine ⟨_, diff_of_valid a (a ++ b) ((validate_append a b).mp h).1 h, ?_, ?_⟩
  · apply ok_of_all_OK
    unfold resolve
    rw [ht]
    exact differ_append_all_OK _ tail
  · unfold resolve
    rw [ht]
    exact differ_append_all_OK _ tail

/-- A valid non-empty layout against itself without its last variable: the
report exists, is not ok and holds an UNSAFE-REMOVE finding. -/
theorem diff_dropLast (a : Layout) (hne : a ≠ []) (h : validate a = .ok ()) :
    ∃ r, diff a a.dropLast = .ok r ∧ r.ok = false ∧
      ∃ f ∈ r.findings, f.severity = .UNSAFE_REMOVE := by
  have hsplit : a.dropLast ++ [a.getLast hne] = a := List.dropLast_append_getLast hne
  have hv : validate (a.dropLast ++ [a.getLast hne]) = .ok () := by rw [hsplit]; exact h
  obtain ⟨tail, ht, hlen⟩ := resolveFrom_append a.dropLast [a.getLast hne] ⟨0, 0⟩
  obtain ⟨x, hx⟩ : ∃ x, tail = [x] := List.length_eq_one.mp (by simpa using hlen)
  have hres : resolve a = resolve a.dropLast ++ [x] := by
    unfold resolve
    rw [← hx, ← ht, hsplit]
  have hmem := differ_remove_last (resolve a.dropLast) x
  rw [← hres] at hmem
  exact ⟨_, diff_of_valid a a.dropLast h ((validate_append _ _).mp hv).1,
    not_ok_of_mem _ _ hmem rfl, _, hmem, rfl⟩

theorem iteration_of_report (o n : Snapshot Layout) (st : Process Layout Error)
    (name : String) (a b : Layout) (r : Report)
    (ha : ownProp o name = some a) (hb : ownProp n name = some b)
    (hr : diff a b = .ok r) :
    iteration getStorageUpgradeReport o n st name =
      ⟨if r.ok then st.exitCode else some 1, st.calls ++ [callArgs o n name], st.thrown⟩ := by
  obtain ⟨hp, _, hoa, hnb⟩ := lookup_json o n name a b ha hb
  apply iteration_ok getStorageUpgradeReport o n st name r hp
  rw [hoa, hnb]
  exact hr

/-- A report comes back exactly when both layouts pass the checks, and it is
the differ's. -/
theorem diff_eq_ok (a b : Layout) (r : Report) (h : diff a b = .ok r) :
    validate a = .ok () ∧ validate b = .ok () ∧ r = differ (resolve a) (resolve b) := by
  unfold diff at h
  cases ha : validate a with
  | error e => simp [ha] at h
  | ok u =>
    cases hb : validate b with
    | error e => simp [ha, hb] at h
    | ok w =>
      simp only [ha, hb, Except.ok.injEq] at h
      exact ⟨rfl, rfl, h.symm⟩

/-- C5: a layout compared with itself yields a report with `ok = true` whose
findings all have severity OK (the layout being one the engine accepts: its
type descriptors have their required fields); and a run of the script on
identical ref and head snapshots never sets `process.exitCode`, and when the
layouts are ones the engine accepts it compares every unit without error and
ends with status 0. -/
theorem identical_layouts_report_ok (layout : Layout) (hl : validate layout = .ok ())
    (snapshot : Snapshot Layout) :
    (∃ r, getStorageUpgradeReport (.json layout) (.json layout) emptyOptions = .ok r ∧
        r.ok = true ∧ ∀ f ∈ r.findings, f.severity = .OK) ∧
      (main getStorageUpgradeReport snapshot snapshot).exitCode = none ∧
      ((∀ p ∈ snapshot, validate p.2 = .ok ()) →
        (main getStorageUpgradeReport snapshot snapshot).thrown = none ∧
        (main getStorageUpgradeReport snapshot snapshot).calls =
          (forInKeys snapshot).map
            (fun name => (getProp snapshot name, getProp snapshot name, emptyOptions)) ∧
        (main getStorageUpgradeReport snapshot snapshot).exitStatus = 0) := by
  have hself : ∀ l : Layout, validate l = .ok () →
      ∃ r, diff l l = .ok r ∧ r.ok = true ∧ ∀ f ∈ r.findings, f.severity = .OK := by
    intro l hv
    have := diff_append l [] (by simpa using hv)
    simpa using this
  have hown : ∀ name ∈ forInKeys snapshot, hasProperty snapshot name = true ∧
      ∃ v, getProp snapshot name = .json v ∧ ∃ p ∈ snapshot, p.2 = v := by
    intro name hm
    obtain ⟨v, hv, p, hp, hpv⟩ := ownProp_of_mem_keys snapshot name hm
    exact ⟨(hasProperty_iff snapshot name).mpr (Or.inl hm), v, by simp [getProp, hv], p, hp, hpv⟩
  have hallok : ∀ name ∈ forInKeys snapshot, ∀ r,
      getStorageUpgradeReport (getProp snapshot name) (getProp snapshot name) emptyOptions =
        .ok r → r.ok = true := by
    intro name hm r hr
    obtain ⟨_, v, hv, _⟩ := hown name hm
    rw [hv] at hr
    have hd : diff v v = .ok r := hr
    obtain ⟨r2, hr2, hok, _⟩ := hself v (diff_eq_ok v v r hd).1
    rw [hd] at hr2
    cases hr2
    exact hok
  refine ⟨?_, ?_, ?_⟩
  · obtain ⟨r, hr, hok, hall⟩ := hself layout hl
    exact ⟨r, by simp [getStorageUpgradeReport, hr], hok, hall⟩
  · exact forInLoop_exitCode_of_all_ok getStorageUpgradeReport snapshot snapshot _ hallok _
  · intro hs
    have hret : ∀ name ∈ sharedNames snapshot snapshot,
        returnsAt getStorageUpgradeReport snapshot snapshot name := by
      intro name hm
      obtain ⟨_, v, hv, p, hp, hpv⟩ := hown name (List.mem_filter.mp hm).1
      obtain ⟨r, hr, _, _⟩ := hself v (hpv ▸ hs p hp)
      exact ⟨r, by rw [hv]; exact hr⟩
    have hshared : sharedNames snapshot snapshot = forInKeys snapshot := by
      unfold sharedNames
      rw [List.filter_eq_self]
      exact fun name hm => (hown name hm).1
    have hnone : (main getStorageUpgradeReport snapshot snapshot).exitCode = none :=
      forInLoop_exitCode_of_all_ok getStorageUpgradeReport snapshot snapshot _ hallok _
    have hmain := main_of_returns getStorageUpgradeReport snapshot snapshot hret
    have hthrown : (main getStorageUpgradeReport snapshot snapshot).thrown = none := by
      rw [hmain]
    refine ⟨hthrown, ?_, ?_⟩
    · rw [hmain, hshared]
      rfl
    · simp [Process.exitStatus, hthrown, hnone]

/-- C6: for a valid layout with one more variable appended at the end the
report has `ok = true` (all findings OK), and the loop body for a unit with
these two entries leaves `process.exitCode` and the error state as they were. -/
theorem appended_variable_report_ok (layout : Layout) (v : Variable)
    (hv : validate (layout ++ [v]) = .ok ())
    (oldLayout newLayout : Snapshot Layout) (name : String) (st : Process Layout Error)
    (hold : ownProp oldLayout name = some layout)
    (hnew : ownProp newLayout name = some (layout ++ [v])) :
    (∃ r, getStorageUpgradeReport (.json layout) (.json (layout ++ [v])) emptyOptions = .ok r ∧
        r.ok = true ∧ ∀ f ∈ r.findings, f.severity = .OK) ∧
      (iteration getStorageUpgradeReport oldLayout newLayout st name).exitCode = st.exitCode ∧
      (iteration getStorageUpgradeReport oldLayout newLayout st name).thrown = st.thrown ∧
      (main getStorageUpgradeReport [(name, layout)] [(name, layout ++ [v])]).exitCode = none := by
  obtain ⟨r, hr, hok, hall⟩ := diff_append layout [v] hv
  refine ⟨⟨r, by simp [getStorageUpgradeReport, hr], hok, hall⟩, ?_, ?_, ?_⟩
  · rw [iteration_of_report oldLayout newLayout st name _ _ r hold hnew hr]
    simp [hok]
  · rw [iteration_of_report oldLayout newLayout st name _ _ r hold hnew hr]
  · have h1 : ownProp [(name, layout)] name = some layout := by simp [ownProp]
    have h2 : ownProp [(name, layout ++ [v])] name = some (layout ++ [v]) := by simp [ownProp]
    simp only [main, forInKeys, ownKeys, List.map_cons, List.map_nil, forInLoop,
      iteration_of_report _ _ Process.initial name _ _ r h1 h2 hr, hok]
    simp [Process.initial, forInLoop]

/-- C7: for a valid non-empty layout with its last variable removed the report
has `ok = false` and holds an UNSAFE-REMOVE finding, and the loop body for a
unit with these two entries sets `process.exitCode` to 1. -/
theorem removed_last_variable_report_not_ok (layout : Layout) (hne : layout ≠ [])
    (hv : validate layout = .ok ())
    (oldLayout newLayout : Snapshot Layout) (name : String) (st : Process Layout Error)
    (hold : ownProp oldLayout name = some layout)
    (hnew : ownProp newLayout name = some layout.dropLast) :
    (∃ r, getStorageUpgradeReport (.json layout) (.json layout.dropLast) emptyOptions = .ok r ∧
        r.ok = false ∧ ∃ f ∈ r.findings, f.severity = .UNSAFE_REMOVE) ∧
      (iteration getStorageUpgradeReport oldLayout newLayout st name).exitCode = some 1 ∧
      (main getStorageUpgradeReport [(name, layout)] [(name, layout.dropLast)]).exitCode =
        some 1 := by
  obtain ⟨r, hr, hok, hrem⟩ := diff_dropLast layout hne hv
  refine ⟨⟨r, by simp [getStorageUpgradeReport, hr], hok, hrem⟩, ?_, ?_⟩
  · rw [iteration_of_report oldLayout newLayout st name _ _ r hold hnew hr]
    simp [hok]
  · have h1 : ownProp [(name, layout)] name = some layout := by simp [ownProp]
    have h2 : ownProp [(name, layout.dropLast)] name = some layout.dropLast := by
      simp [ownProp]
    simp only [main, forInKeys, ownKeys, List.map_cons, List.map_nil, forInLoop,
      iteration_of_report _ _ Process.initial name _ _ r h1 h2 hr, hok]
    simp [Process.initial, forInLoop]

end Engine


section Concrete

theorem sample_shared : sharedNames sampleRef sampleHead = ["A", "B"] := by decide

theorem sample_returns : ∀ name ∈ sharedNames sampleRef sampleHead,
    returnsAt sampleCmp sampleRef sampleHead name := by
  intro name hm
  rw [sample_shared] at hm
  simp only [List.mem_cons, List.mem_singleton, List.not_mem_nil, or_false] at hm
  rcases hm with h | h <;> subst h
  · exact ⟨⟨[]⟩, rfl⟩
  · exact ⟨⟨[⟨.UNSAFE_TYPE_CHANGE, none, none, "changed"⟩]⟩, rfl⟩

/-- Witness for C1: on the sample snapshots no comparison throws, unit `B` has
a report that is not ok, and the exit code is 1. -/
theorem exitCode_one_iff_some_report_not_ok_witness :
    (∀ name ∈ sharedNames sampleRef sampleHead,
        returnsAt sampleCmp sampleRef sampleHead name) ∧
      (main sampleCmp sampleRef sampleHead).exitCode = some 1 :=
  ⟨sample_returns,
    (exitCode_one_iff_some_report_not_ok sampleCmp sampleRef sampleHead sample_returns).1.mpr
      ⟨"B", by decide, by decide, ⟨_, rfl, rfl⟩⟩⟩

/-- Witness for C8: on the sample snapshots the comparison is invoked for `A`
and then for `B`, the ref entry first, and not for `Gone` or `New`. -/
theorem calls_are_shared_names_in_order_witness :
    (main sampleCmp sampleRef sampleHead).calls =
      [(.json 1, .json 1, emptyOptions), (.json 2, .json 5, emptyOptions)] :=
  (calls_are_shared_names_in_order sampleCmp sampleRef sampleHead sample_returns).1.trans
    (by decide)

/-- Witness for C4: two head snapshots that differ only in units the ref
snapshot does not have give the same run. -/
theorem head_only_names_have_no_effect_witness :
    (∀ name ∈ forInKeys sampleRef, ownProp sampleHead name = ownProp sampleHeadOther name) ∧
      main sampleCmp sampleRef sampleHead = main sampleCmp sampleRef sampleHeadOther :=
  ⟨by decide,
    (head_only_names_have_no_effect sampleCmp sampleRef sampleHead sampleHeadOther
      (by decide)).1⟩

/-- Witness for C9: the sample ref snapshot and its reordering end with the
same exit code. -/
theorem exitCode_independent_of_ref_order_witness :
    sampleRef.Perm sampleRefReordered ∧
      (main totalCmp sampleRef sampleHead).exitCode =
        (main totalCmp sampleRefReordered sampleHead).exitCode :=
  ⟨List.reverse_perm sampleRefReordered,
    (exitCode_independent_of_ref_order totalCmp sampleRef sampleRefReordered sampleHead
      (List.reverse_perm sampleRefReordered) (by decide)
      (fun a b opts => by
        unfold totalCmp
        by_cases h : a = b
        · exact ⟨_, if_pos h⟩
        · exact ⟨_, if_neg h⟩)).1⟩

/-- C2, counterexample: the comparison of the shared unit `Bad` throws; the
shared unit `C`, whose report would not be ok, comes after it, is never
compared, and `process.exitCode` is never set. -/
theorem later_units_not_compared_after_throw :
    sampleCmp (getProp brokenRef "Bad") (getProp brokenHead "Bad") emptyOptions =
        .error "malformed" ∧
      "C" ∈ sharedNames brokenRef brokenHead ∧
      notOkAt sampleCmp brokenRef brokenHead "C" ∧
      callArgs brokenRef brokenHead "C" ∉ (main sampleCmp brokenRef brokenHead).calls ∧
      (main sampleCmp brokenRef brokenHead).calls = [callArgs brokenRef brokenHead "A",
        callArgs brokenRef brokenHead "Bad"] ∧
      (main sampleCmp brokenRef brokenHead).exitCode = none :=
  ⟨rfl, by decide, ⟨_, rfl, rfl⟩, by decide, by decide, by decide⟩

/-- Witness for C2 as amended: on the broken snapshots the run stops at `Bad`
after comparing `A`. -/
theorem comparison_error_aborts_loop_witness :
    (main sampleCmp brokenRef brokenHead).thrown = some "malformed" ∧
      (main sampleCmp brokenRef brokenHead).exitStatus = 1 :=
  have h := comparison_error_aborts_loop sampleCmp brokenRef brokenHead ["A"] ["C"] "Bad"
    "malformed" rfl
    (fun x hx _ => by
      simp only [List.mem_singleton] at hx
      subst hx
      exact ⟨⟨[]⟩, rfl⟩)
    (by decide) rfl
  ⟨h.1, h.2.2.2⟩

/-- C3, failing input: a unit named `toString` that is a key of the ref
snapshot and not of the head snapshot is still handed to the comparison,
whatever the comparison is, because `"toString" in newLayout` holds through
`Object.prototype`; with a comparison that rejects such an argument the process
ends with status 1, while the run without that unit makes no call and ends
with status 0. -/
theorem removed_unit_named_toString_is_compared :
    "toString" ∈ ownKeys protoRef ∧ "toString" ∉ ownKeys protoHead ∧
      (∀ cmp : Comparison Nat String, (main cmp protoRef protoHead).calls =
        [(.json 4, .inherited "toString", emptyOptions)]) ∧
      (∀ cmp : Comparison Nat String,
        (main cmp (deleteKey protoRef "toString") protoHead).calls = []) ∧
      (main sampleCmp protoRef protoHead).exitStatus = 1 ∧
      (main sampleCmp (deleteKey protoRef "toString") protoHead).exitStatus = 0 := by
  refine ⟨by decide, by decide, ?_, ?_, by decide, by decide⟩
  · intro cmp
    have hp : hasProperty protoHead "toString" = true := by decide
    have hg : callArgs protoRef protoHead "toString" =
        (.json 4, .inherited "toString", emptyOptions) := by decide
    cases hr : cmp (getProp protoRef "toString") (getProp protoHead "toString") emptyOptions with
    | error e =>
      have hi := iteration_error cmp protoRef protoHead Process.initial "toString" e hp hr
      show (forInLoop cmp protoRef protoHead ["toString"] Process.initial).calls = _
      simp only [forInLoop, hi, hg]
      simp [Process.initial]
    | ok r =>
      have hi := iteration_ok cmp protoRef protoHead Process.initial "toString" r hp hr
      show (forInLoop cmp protoRef protoHead ["toString"] Process.initial).calls = _
      simp only [forInLoop, hi, hg]
      simp [Process.initial]
  · intro cmp
    rfl

/-- The resolver example of section 8: two 16-byte variables share slot 0 and
the 32-byte one goes to slot 1. -/
theorem resolve_packing_example :
    (resolve sampleLayout).map (fun p => (p.slot, p.offset, p.width)) =
      [(0, 0, 16), (0, 16, 16), (1, 0, 32)] := by
  decide

/-- The differ examples of section 8: an appended variable, a removed one, a
change of meaning at equal width, a change of width. -/
theorem diff_examples :
    (∃ r, diff [⟨"a", uint256, none⟩] [⟨"a", uint256, none⟩, ⟨"b", uint256, none⟩] = .ok r ∧
        r.ok = true ∧ r.findings.map (fun f => f.severity) = [.OK, .OK]) ∧
      (∃ r, diff [⟨"a", uint256, none⟩, ⟨"b", uint256, none⟩] [⟨"a", uint256, none⟩] = .ok r ∧
        r.ok = false ∧ r.findings.map (fun f => f.severity) = [.OK, .UNSAFE_REMOVE]) ∧
      (∃ r, diff [⟨"x", uint128, none⟩] [⟨"x", address16, none⟩] = .ok r ∧
        r.ok = true ∧ r.findings.map (fun f => f.severity) = [.WARNING]) ∧
      (∃ r, diff [⟨"x", uint256, none⟩] [⟨"x", uint128, none⟩] = .ok r ∧
        r.ok = false ∧ r.findings.map (fun f => f.severity) = [.UNSAFE_TYPE_CHANGE]) :=
  ⟨⟨_, rfl, by decide, by decide⟩, ⟨_, rfl, by decide, by decide⟩,
    ⟨_, rfl, by decide, by decide⟩, ⟨_, rfl, by decide, by decide⟩⟩

/-- A fixed-size array wider than a slot is a well-formed type: it starts at a
slot boundary and takes whole slots, and what follows it comes after them. -/
theorem resolve_wide_array_example :
    validate (tokenLayout ++ [sampleVariable]) = .ok () ∧
      (resolve (tokenLayout ++ [sampleVariable])).map (fun p => (p.slot, p.offset, p.width)) =
        [(0, 0, 16), (0, 16, 16), (1, 0, 32), (2, 0, 1600), (52, 0, 32)] :=
  ⟨rfl, by decide⟩

/-- Rule 7 on struct members: appending a member to a struct is compatible,
but a member that follows the grown struct inside an enclosing struct is
shifted, which makes the enclosing struct incompatible. -/
theorem struct_member_shift_example :
    isCompatible innerStruct innerStructGrown = .compatible ∧
      isCompatible (.mk .struct none "" 0 [innerStruct, uint128])
        (.mk .struct none "" 0 [innerStructGrown, uint128]) = .incompatible ∧
      isCompatible (.mk .struct none "" 0 [uint128, uint256])
        (.mk .struct none "" 0 [address16, uint256]) = .caveat := by
  decide

/-- Witness for C5: the layout with a fifty-slot gap is valid and the run on
two copies of its snapshot ends with status 0. -/
theorem identical_layouts_report_ok_witness :
    validate tokenLayout = .ok () ∧
      (main getStorageUpgradeReport tokenSnapshot tokenSnapshot).exitCode = none ∧
      (main getStorageUpgradeReport tokenSnapshot tokenSnapshot).exitStatus = 0 :=
  have h := identical_layouts_report_ok tokenLayout rfl tokenSnapshot
  ⟨rfl, h.2.1, (h.2.2 (fun p hp => by
      simp only [tokenSnapshot, List.mem_singleton] at hp
      subst hp
      rfl)).2.2⟩

/-- Witness for C6: appending a variable after the gap leaves the exit code
untouched. -/
theorem appended_variable_report_ok_witness :
    validate (tokenLayout ++ [sampleVariable]) = .ok () ∧
      (iteration getStorageUpgradeReport tokenSnapshot tokenAppended Process.initial
        "Token").exitCode = none ∧
      (main getStorageUpgradeReport [("Token", tokenLayout)]
        [("Token", tokenLayout ++ [sampleVariable])]).exitCode = none :=
  have h := appended_variable_report_ok tokenLayout sampleVariable rfl tokenSnapshot
    tokenAppended "Token" Process.initial rfl rfl
  ⟨rfl, h.2.1, h.2.2.2⟩

/-- Witness for C7: removing the last variable, the gap, sets the exit code
to 1. -/
theorem removed_last_variable_report_not_ok_witness :
    tokenLayout ≠ [] ∧ validate tokenLayout = .ok () ∧
      (iteration getStorageUpgradeReport tokenSnapshot tokenShortened Process.initial
        "Token").exitCode = some 1 :=
  have h := removed_last_variable_report_not_ok tokenLayout (List.cons_ne_nil _ _) rfl
    tokenSnapshot tokenShortened "Token" Process.initial rfl rfl
  ⟨List.cons_ne_nil _ _, rfl, h.2.1⟩

end Concrete

end CompareLayout
